import Mathlib

/-!
# Open-AudioAI background service worker: a shallow embedding

This file embeds the transcript upload/lifecycle core of
`src/background.js` (the Chrome extension background service worker) as
executable Lean definitions and proves the specification claims about it.

Modelling conventions:
* JSON / JavaScript values reachable from `JSON.parse` are modelled by the
  inductive `JVal` (finite numbers as rationals — no arithmetic is ever
  performed on them, they are carried through opaquely, so `ℚ` is a faithful
  carrier at this abstraction level).
* JavaScript number values produced by `Number(...)` coercion may also be
  `Infinity` / `-Infinity`; those are modelled by `JNum`.
* `undefined` is modelled by `Option.none` at the points where the code can
  observe it (`w?.start`, missing message fields, ...).
* Host-builtin string coercions (`Number(s)`, `parseInt(v)`, `String(v)`,
  `trim`, the `\s+` regex) are modelled explicitly because claims hinge on
  their edge cases (e.g. `Number("") = 0`).
* `JSON.parse` itself is host functionality, not repository code; functions
  that call it take a `parse : String → Option JVal` parameter (`none`
  models a thrown `SyntaxError`). Concrete instantiations in closed
  theorems agree with strict JSON parsing on every string they are queried
  on.
* Timestamps (`Date.now()`) are naturals (milliseconds); each operation
  takes the relevant timestamps as parameters.
-/

/-- Finite JSON value, as produced by a successful `JSON.parse`. -/
inductive JVal where
  | jnull : JVal
  | jbool : Bool → JVal
  | jnum : ℚ → JVal
  | jstr : String → JVal
  | jarr : List JVal → JVal
  | jobj : List (String × JVal) → JVal

/-- A JavaScript number as produced by `Number(...)` coercion: a finite
value or one of the two infinities (`NaN` is represented by `Option.none`
at use sites, matching the code's `Number.isNaN` checks). -/
inductive JNum where
  | fin : ℚ → JNum
  | posInf : JNum
  | negInf : JNum
  deriving Repr, BEq, DecidableEq

/-- The single-quote character, used by the response-repair pass. -/
def squote : Char := Char.ofNat 39

/-- Whitespace class of JavaScript's `\s`, `String.prototype.trim` and the
leading-whitespace skipping of `Number` / `parseInt` (ASCII fragment; the
Unicode space characters are never produced by the modelled code paths). -/
def isJsWs (c : Char) : Bool :=
  c = ' ' || c = '\t' || c = '\n' || c = '\r' || c = '\x0b' || c = '\x0c'

/-- Model of `String.prototype.trim`. -/
def jsTrim (s : String) : String :=
  ⟨((s.data.dropWhile isJsWs).reverse.dropWhile isJsWs).reverse⟩

/-- One pass of `.replace(/\s+/g, ' ')`: each maximal run of whitespace
characters becomes a single space.  The boolean tracks whether the previous
character belonged to a run already replaced. -/
def collapseWsAux : List Char → Bool → List Char
  | [], _ => []
  | c :: cs, prevWs =>
    if isJsWs c then
      if prevWs then collapseWsAux cs true
      else ' ' :: collapseWsAux cs true
    else c :: collapseWsAux cs false

/-- Model of `.replace(/\s+/g, ' ')`. -/
def collapseWs (s : String) : String := ⟨collapseWsAux s.data false⟩

/-- Value of a decimal digit character, `none` for non-digits. -/
def digVal (c : Char) : Option Nat :=
  if '0' ≤ c ∧ c ≤ '9' then some (c.toNat - '0'.toNat) else none

/-- Numeric value of a radix-`b` digit (supports hex letters). -/
def radixDigVal (b : Nat) (c : Char) : Option Nat :=
  let v :=
    if '0' ≤ c ∧ c ≤ '9' then some (c.toNat - '0'.toNat)
    else if 'a' ≤ c ∧ c ≤ 'f' then some (c.toNat - 'a'.toNat + 10)
    else if 'A' ≤ c ∧ c ≤ 'F' then some (c.toNat - 'A'.toNat + 10)
    else none
  match v with
  | some n => if n < b then some n else none
  | none => none

/-- Interpret a digit list in radix `b`; `none` if empty or a non-digit. -/
def digitsToNat (b : Nat) : List Char → Option Nat
  | [] => none
  | cs => go cs 0
where
  go : List Char → Nat → Option Nat
    | [], acc => some acc
    | c :: cs, acc =>
      match radixDigVal b c with
      | some d => go cs (acc * b + d)
      | none => none

/-- Decimal value of a digit list, `0` when empty (used for the integer and
fraction parts of a decimal literal, where either side of the point may be
missing). Fails on a non-digit. -/
def decDigitsVal : List Char → Option Nat
  | [] => some 0
  | cs => digitsToNat 10 cs

/-- Split a char list at the first exponent marker `e`/`E`. -/
def splitOnExp : List Char → List Char × Option (List Char)
  | [] => ([], none)
  | c :: cs =>
    if c = 'e' ∨ c = 'E' then ([], some cs)
    else
      let (m, e) := splitOnExp cs
      (c :: m, e)

/-- Split a char list at the first decimal point. -/
def splitOnDot : List Char → List Char × Option (List Char)
  | [] => ([], none)
  | c :: cs =>
    if c = '.' then ([], some cs)
    else
      let (m, e) := splitOnDot cs
      (c :: m, e)

/-- Value of an (unsigned, exponent-free) decimal mantissa: `D+`, `D+.D*`
or `.D+`. `none` models `NaN`. -/
def parseDecMantissa (cs : List Char) : Option ℚ :=
  let (ip, fpOpt) := splitOnDot cs
  let fp := fpOpt.getD []
  if ip.isEmpty && fp.isEmpty then none
  else
    match decDigitsVal ip, decDigitsVal fp with
    | some i, some f => some ((i : ℚ) + (f : ℚ) / (10 : ℚ) ^ fp.length)
    | _, _ => none

/-- Value of an exponent part: optional sign then one or more digits. -/
def parseExpPart : List Char → Option ℤ
  | [] => none
  | '+' :: cs => (digitsToNat 10 cs).map Int.ofNat
  | '-' :: cs => (digitsToNat 10 cs).map (fun n => -(n : ℤ))
  | cs => (digitsToNat 10 cs).map Int.ofNat

/-- Value of an unsigned decimal literal with optional exponent. -/
def parseUnsignedDec (cs : List Char) : Option ℚ :=
  let (m, eOpt) := splitOnExp cs
  match parseDecMantissa m with
  | none => none
  | some q =>
    match eOpt with
    | none => some q
    | some ecs =>
      match parseExpPart ecs with
      | some e => some (q * (10 : ℚ) ^ e)
      | none => none

/-- Unsigned numeric part after an optional sign: `Infinity` or a decimal
literal. -/
def jsUnsignedToNumber (cs : List Char) (neg : Bool) : Option JNum :=
  if cs = "Infinity".data then some (if neg then JNum.negInf else JNum.posInf)
  else
    match parseUnsignedDec cs with
    | some q => some (JNum.fin (if neg then -q else q))
    | none => none

/-- Optional sign then unsigned part (sign is not permitted before the
non-decimal `0x`/`0o`/`0b` forms, which are handled by the caller). -/
def jsSignedToNumber : List Char → Option JNum
  | '+' :: cs => jsUnsignedToNumber cs false
  | '-' :: cs => jsUnsignedToNumber cs true
  | cs => jsUnsignedToNumber cs false

/-- Model of the host `Number(string)` coercion (ECMA-262 StringToNumber):
surrounding whitespace is ignored, the empty string is `+0`, then either a
non-decimal integer literal (`0x`/`0o`/`0b`), or an optionally signed
decimal literal or `Infinity`. Anything else is `NaN`, modelled as `none`. -/
def jsStringToNumber (s : String) : Option JNum :=
  let cs := ((s.data.dropWhile isJsWs).reverse.dropWhile isJsWs).reverse
  match cs with
  | [] => some (JNum.fin 0)
  | '0' :: c :: rest =>
    if c = 'x' ∨ c = 'X' then (digitsToNat 16 rest).map (fun n => JNum.fin n)
    else if c = 'o' ∨ c = 'O' then (digitsToNat 8 rest).map (fun n => JNum.fin n)
    else if c = 'b' ∨ c = 'B' then (digitsToNat 2 rest).map (fun n => JNum.fin n)
    else jsSignedToNumber cs
  | _ => jsSignedToNumber cs

/-- Digits of the fractional expansion of `r / d`, stopping at an exact
expansion or after `fuel` digits (host number formatting never prints more
than 17 significant digits; no modelled code path feeds a value needing
more). -/
def fracDigits (d : Nat) : Nat → Nat → String
  | _, 0 => ""
  | 0, _ => ""
  | r, fuel + 1 =>
    let r10 := r * 10
    toString (r10 / d) ++ fracDigits d (r10 % d) fuel

/-- Model of host number-to-string conversion for the finite values the
modelled code paths can produce (integers exactly; other rationals as a
plain decimal expansion). -/
def numToString (q : ℚ) : String :=
  if q.den = 1 then toString q.num
  else
    let sign := if q < 0 then ("-") else ("")
    let n := q.num.natAbs
    sign ++ toString (n / q.den) ++ "." ++ fracDigits q.den (n % q.den) 20

/-- Model of the host `String(value)` coercion on parsed JSON values
(arrays join their elements with commas, rendering `null` elements as the
empty string; objects print as `[object Object]`). -/
def jsToString : JVal → String
  | JVal.jnull => "null"
  | JVal.jbool true => "true"
  | JVal.jbool false => "false"
  | JVal.jnum q => numToString q
  | JVal.jstr s => s
  | JVal.jarr xs => String.intercalate (",") (jsToStringList xs)
  | JVal.jobj _ => "[object Object]"
where
  jsToStringList : List JVal → List String
    | [] => []
    | JVal.jnull :: vs => "" :: jsToStringList vs
    | v :: vs => jsToString v :: jsToStringList vs

/-- Shared digit-prefix step of `parseInt`: choose the radix (hex when the
body starts `0x`/`0X`, else 10), take the longest digit prefix, fail
(`NaN`) when it is empty. -/
def parseIntDigits (cs : List Char) (neg : Bool) : Option Int :=
  let (body, radix) :=
    match cs with
    | '0' :: c :: rest =>
      if c = 'x' ∨ c = 'X' then (rest, 16) else (cs, (10 : Nat))
    | _ => (cs, 10)
  let digits := body.takeWhile (fun c => (radixDigVal radix c).isSome)
  match digitsToNat radix digits with
  | some n => some (if neg then -(n : Int) else (n : Int))
  | none => none

/-- Model of the host `parseInt(string)` (no explicit radix argument):
skip leading whitespace, optional sign, then the longest digit prefix in
radix 10 (or 16 after `0x`). `none` models `NaN`. -/
def parseIntString (s : String) : Option Int :=
  match s.data.dropWhile isJsWs with
  | '+' :: rest => parseIntDigits rest false
  | '-' :: rest => parseIntDigits rest true
  | rest => parseIntDigits rest false

/-- Model of `parseInt(value)` on a possibly-undefined JSON value: the argument is
first converted with `String(...)` (`undefined` stringifies to
`"undefined"`, which parses to `NaN`). -/
def parseIntJs (v : Option JVal) : Option Int :=
  parseIntString (match v with
    | none => "undefined"
    | some w => jsToString w)

/-- JavaScript truthiness of a possibly-undefined parsed JSON value. -/
def jsTruthy : Option JVal → Bool
  | none => false
  | some JVal.jnull => false
  | some (JVal.jbool b) => b
  | some (JVal.jnum q) => q ≠ 0
  | some (JVal.jstr s) => s ≠ ""
  | some (JVal.jarr _) => true
  | some (JVal.jobj _) => true

/-- Model of optional-chained property access `v?.k`: defined only on
objects (first matching key; parsed JSON objects have unique keys),
`undefined` (`none`) on every other value. -/
def jsGetField : JVal → String → Option JVal
  | JVal.jobj fields, k => (fields.find? (fun p => p.1 == k)).map (fun p => p.2)
  | _, _ => none

/-- Function `toNumberSafe` from `src/background.js`: numbers pass through, strings
are trimmed and coerced with `Number(...)` and kept when not `NaN`;
everything else (including `undefined`) yields `null`, the explicit
unknown-timing marker (modelled as `none`). -/
def toNumberSafe : Option JVal → Option JNum
  | some (JVal.jnum q) => some (JNum.fin q)
  | some (JVal.jstr s) =>
    match jsStringToNumber (jsTrim s) with
    | some n => some n
    | none => none
  | _ => none

/-- A word entry of the canonical normalized response shape. -/
structure NormalizedWord where
  word : String
  start : Option JNum
  «end» : Option JNum
  deriving Repr, BEq, DecidableEq

/-- The canonical result shape produced by the Response Normalizer. -/
structure NormalizedResponse where
  success : Bool
  transcript : String
  words : List NormalizedWord
  deriving Repr, BEq, DecidableEq

/-- Function `normalizeTranscriptionResponse` from `src/background.js`: a bare array
is taken as the word list; an object contributes optional `words` and
`transcript` fields; each word entry gets its text coerced to a string and
its `start`/`end` passed through `toNumberSafe`; when no transcript string
was present and words exist, the transcript is synthesized by joining the
word tokens with no separator, collapsing whitespace runs and trimming. -/
def normalizeTranscriptionResponse (raw : JVal) : NormalizedResponse :=
  let pair : List JVal × String :=
    match raw with
    | JVal.jarr xs => (xs, "")
    | JVal.jobj _ =>
      (match jsGetField raw ("words") with
       | some (JVal.jarr ws) => ws
       | _ => [],
       match jsGetField raw ("transcript") with
       | some (JVal.jstr t) => t
       | _ => "")
    | _ => ([], "")
  let words := pair.1.map (fun w =>
    let startNum := toNumberSafe (jsGetField w ("start"))
    let endNum := toNumberSafe (jsGetField w ("end"))
    { word :=
        match jsGetField w ("word") with
        | some (JVal.jstr s) => s
        | other => jsToString (other.getD (JVal.jstr ("")))
      start := startNum
      «end» := endNum : NormalizedWord })
  let transcript :=
    if pair.2 = "" && !words.isEmpty then
      jsTrim (collapseWs (String.join (words.map (fun w => w.word))))
    else pair.2
  { success := true, transcript := transcript, words := words }

/-- Lifecycle states of a transcript record. -/
inductive Status where
  | pending
  | success
  | error
  deriving Repr, BEq, DecidableEq

/-- A persisted transcript record (the objects stored in the `transcripts`
array of `chrome.storage.local`).  `updatedAt` is `none` on freshly built
records — `buildRecord` never sets the field; only the update handler
does. -/
structure TranscriptRecord where
  id : String
  filename : String
  createdAt : Nat
  status : Status
  transcript : String
  words : List NormalizedWord
  error : Option String
  updatedAt : Option Nat
  deriving Repr, BEq, DecidableEq

/-- Function `buildRecord` from `src/background.js`: a fresh record object whose
`createdAt` is the current time.  `transcript || ''`, `words || []` and
`error || null` are modelled on `Option` arguments (an empty-string error
is falsy and becomes `null`; an empty words array is truthy and is kept,
which coincides with the `[]` default). -/
def buildRecord (id filename : String) (now : Nat) (status : Status)
    (transcript : Option String) (words : Option (List NormalizedWord))
    (error : Option String) : TranscriptRecord :=
  { id := id
    filename := filename
    createdAt := now
    status := status
    transcript := transcript.getD ("")
    words := words.getD []
    error :=
      match error with
      | some e => if e = "" then none else some e
      | none => none
    updatedAt := none }

/-- First record with the given id, matching how the UI and the handlers
address records. -/
def findRecord (store : List TranscriptRecord) (id : String) :
    Option TranscriptRecord :=
  store.find? (fun t => t.id == id)

/-- Function `saveTranscriptRecord`: the new record is prepended,
`[record, ...transcripts]`. -/
def saveTranscriptRecord (store : List TranscriptRecord)
    (record : TranscriptRecord) : List TranscriptRecord :=
  record :: store

/-- The terminal phase of `UploadManager.startUpload`: on resolution of
`uploadPayload` the current store is re-read and every record carrying the
upload's id is replaced by a freshly built `success` record (carrying the
normalized transcript and words) or `error` record (carrying the caught
message). -/
def finalizeUpload (transcripts : List TranscriptRecord) (id filename : String)
    (tFinal : Nat) (outcome : Except String NormalizedResponse) :
    List TranscriptRecord :=
  match outcome with
  | Except.ok n =>
    let successRecord :=
      buildRecord id filename tFinal Status.success (some n.transcript)
        (some n.words) none
    transcripts.map (fun t => if t.id == id then successRecord else t)
  | Except.error e =>
    let errorRecord :=
      buildRecord id filename tFinal Status.error none none (some e)
    transcripts.map (fun t => if t.id == id then errorRecord else t)

/-- The two store writes of `UploadManager.startUpload` for one submitted
upload, run sequentially: a `pending` record is prepended, then — once the
network exchange settles with `outcome` — the terminal replacement runs on
that store. -/
def startUploadSnapshots (store : List TranscriptRecord) (id filename : String)
    (tPending tFinal : Nat) (outcome : Except String NormalizedResponse) :
    List TranscriptRecord × List TranscriptRecord :=
  let pendingRecord :=
    buildRecord id filename tPending Status.pending none none none
  let afterPending := saveTranscriptRecord store pendingRecord
  (afterPending, finalizeUpload afterPending id filename tFinal outcome)

/-- The sequence of states the submitted record is observed in across the
two store snapshots written by `startUpload`. -/
def recordStatusHistory (store : List TranscriptRecord) (id filename : String)
    (tPending tFinal : Nat) (outcome : Except String NormalizedResponse) :
    List Status :=
  let (s1, s2) := startUploadSnapshots store id filename tPending tFinal outcome
  [s1, s2].filterMap (fun s => (findRecord s id).map (fun r => r.status))

/-- The status transitions the orchestrator is allowed to perform:
only out of `pending`, only into a terminal state. -/
def allowedTransition (a b : Status) : Prop :=
  a = Status.pending ∧ (b = Status.success ∨ b = Status.error)

/-- Per-record effect of `handleMessage` case `updateTranscript`: every record with the given
id gets the supplied string fields copied in (`transcript` when a string
was supplied, `filename` when a string with non-empty trim was supplied —
trimmed) and `updatedAt` stamped; all other records are returned as-is.
`none` models a missing / non-string field (`typeof x === 'string'`
fails). -/
def applyTranscriptEdit (id : String) (newTranscript : Option String)
    (newFilename : Option String) (now : Nat) (t : TranscriptRecord) :
    TranscriptRecord :=
  if t.id == id then
    let u1 :=
      match newTranscript with
      | some s => { t with transcript := s }
      | none => t
    let u2 :=
      match newFilename with
      | some s => if jsTrim s ≠ "" then { u1 with filename := jsTrim s } else u1
      | none => u1
    { u2 with updatedAt := some now }
  else t

/-- The whole-store effect of the update handler. -/
def updateTranscriptStep (transcripts : List TranscriptRecord) (id : String)
    (newTranscript : Option String) (newFilename : Option String)
    (now : Nat) : List TranscriptRecord :=
  transcripts.map (applyTranscriptEdit id newTranscript newFilename now)

/-- Terminal state selected by `startUpload` from the settled upload
outcome: the resolved branch writes `success`, the caught branch `error`. -/
def finalStatusOf : Except String NormalizedResponse → Status
  | Except.ok _ => Status.success
  | Except.error _ => Status.error

/-- Outcome of the input guard of `handleMessage` case
`'startBackgroundUpload'`. -/
inductive UploadDecision where
  | rejected : String → UploadDecision
  | accepted : UploadDecision
  deriving Repr, BEq, DecidableEq

/-- Model of `const hasAb = arrayBuffer && (arrayBuffer.byteLength >= 0 ||
arrayBuffer.size >= 0)`: an `ArrayBuffer` is modelled by its byte length (a
nonnegative machine integer), so the inner comparison holds whenever a
buffer is present at all — including a zero-byte buffer. -/
def hasArrayBufferPayload (arrayBuffer : Option Nat) : Bool :=
  match arrayBuffer with
  | some byteLength => decide (byteLength ≥ 0)
  | none => false

/-- Model of the `hasDu` test: `typeof dataUrl` is a string and `dataUrl` starts with the data-URL scheme prefix. -/
def hasDataUrlPayload (dataUrl : Option String) : Bool :=
  match dataUrl with
  | some s => s.startsWith ("data:")
  | none => false

/-- The synchronous input guard of `handleMessage` case
`'startBackgroundUpload'`: `if (!filename || (!hasAb && !hasDu)) return
{ success: false, message: 'Missing file data' }`.  `filename = none`
models an absent field, `some ""` the empty string (both falsy). -/
def startBackgroundUploadGuard (filename : Option String)
    (arrayBuffer : Option Nat) (dataUrl : Option String) : UploadDecision :=
  let hasAb := hasArrayBufferPayload arrayBuffer
  let hasDu := hasDataUrlPayload dataUrl
  let filenameFalsy :=
    match filename with
    | some s => s = ""
    | none => true
  if filenameFalsy || (!hasAb && !hasDu) then
    UploadDecision.rejected ("Missing file data")
  else UploadDecision.accepted

/-- The store effect of `handleMessage` case `'startBackgroundUpload'`:
a rejected request returns before `UploadManager.startUpload` is reached,
leaving the store untouched; an accepted one runs the upload. -/
def handleStartBackgroundUpload (store : List TranscriptRecord)
    (filename : Option String) (arrayBuffer : Option Nat)
    (dataUrl : Option String) (id : String) (tPending tFinal : Nat)
    (outcome : Except String NormalizedResponse) : List TranscriptRecord :=
  match startBackgroundUploadGuard filename arrayBuffer dataUrl with
  | UploadDecision.rejected _ => store
  | UploadDecision.accepted =>
    (startUploadSnapshots store id (filename.getD ("")) tPending tFinal outcome).2

/-- Function `SecurityManager.checkRateLimit` for a single identity: the stored
timestamp list is filtered to the 60-second window; at or above 10 recent
requests the call is rejected (and, per the source, the filtered list is
*not* written back); otherwise the current time is appended and the call
accepted. -/
def checkRateLimit (now : Nat) (userRequests : List Nat) :
    Bool × List Nat :=
  let recentRequests := userRequests.filter (fun time => now - time < 60000)
  if recentRequests.length ≥ 10 then (false, userRequests)
  else (true, recentRequests ++ [now])

/-- A sequence of `checkRateLimit` calls for one identity, threading the
stored timestamp list. -/
def runCalls : List Nat → List Nat → List Bool × List Nat
  | [], st => ([], st)
  | t :: ts, st =>
    let (ok, st1) := checkRateLimit t st
    let (oks, st2) := runCalls ts st1
    (ok :: oks, st2)

/-- What the token-introspection exchange of `AuthManager.validateToken`
can come back with: a thrown network error, a body that is not JSON
(`response.json()` throws), or a parsed JSON body. -/
inductive IntrospectionOutcome where
  | netError : IntrospectionOutcome
  | badJson : IntrospectionOutcome
  | ok : JVal → IntrospectionOutcome

/-- Function `AuthManager.validateToken`: non-string / empty tokens fail; any thrown
error (network or JSON parse) is caught and fails; a truthy `error` field
fails; a parsed `expires_in` below 300 seconds fails; everything else
validates. -/
def validateToken (token : String) (outcome : IntrospectionOutcome) : Bool :=
  if token = "" then false
  else
    match outcome with
    | IntrospectionOutcome.netError => false
    | IntrospectionOutcome.badJson => false
    | IntrospectionOutcome.ok tokenInfo =>
      if jsTruthy (jsGetField tokenInfo ("error")) then false
      else
        match parseIntJs (jsGetField tokenInfo ("expires_in")) with
        | some expiresIn => if expiresIn < 300 then false else true
        | none => true

/-- Match a literal char-list prefix, returning the remainder. -/
def matchPrefixChars : List Char → List Char → Option (List Char)
  | [], rest => some rest
  | _ :: _, [] => none
  | p :: ps, c :: cs => if c = p then matchPrefixChars ps cs else none

/-- Characters up to (excluding) the first closing parenthesis, plus the
remainder after it; `none` when there is no closing parenthesis. -/
def takeUntilClose : List Char → Option (List Char × List Char)
  | [] => none
  | c :: cs =>
    if c = ')' then some ([], cs)
    else (takeUntilClose cs).map (fun p => (c :: p.1, p.2))

/-- Characters up to (excluding) the first single quote, plus the remainder
after it; `none` when there is no closing quote. -/
def takeQuoted : List Char → Option (List Char × List Char)
  | [] => none
  | c :: cs =>
    if c = squote then some ([], cs)
    else (takeQuoted cs).map (fun p => (c :: p.1, p.2))

/-- Repair step 1, the global replace of numeric-wrapper call syntax
(pattern: literal wrapper name and parenthesis, lazily captured non-empty
body without a closing parenthesis, surrounding whitespace dropped,
replaced by the capture).  When the body is entirely whitespace the lazy
capture degenerates to its final character.  The fuel is the remaining
input length; every recursive call consumes at least one input character. -/
def repairFloatAux : Nat → List Char → List Char
  | 0, cs => cs
  | _, [] => []
  | fuel + 1, c :: cs =>
    match matchPrefixChars ("np.float64(").data (c :: cs) with
    | some afterParen =>
      match takeUntilClose afterParen with
      | some (inner, rest) =>
        if inner.isEmpty then c :: repairFloatAux fuel cs
        else
          let trimmed := (jsTrim ⟨inner⟩).data
          let repl := if trimmed.isEmpty then [inner.getLastD ' '] else trimmed
          repl ++ repairFloatAux fuel rest
      | none => c :: repairFloatAux fuel cs
    | none => c :: repairFloatAux fuel cs

/-- Word-constituent characters for the `\b` boundary assertion. -/
def isWordChar (c : Char) : Bool :=
  ('a' ≤ c && c ≤ 'z') || ('A' ≤ c && c ≤ 'Z') ||
  ('0' ≤ c && c ≤ '9') || c = '_'

/-- Repair step 2 worker: global whole-word replacement (`\btarget\b`).
`prevWord` says whether the character before the current position is a
word character (so a boundary match is impossible).  After a replacement,
scanning resumes after the matched occurrence in the original input, whose
last character is a word character for every target used here. -/
def replaceWordAux (target repl : List Char) : Nat → List Char → Bool → List Char
  | 0, cs, _ => cs
  | _, [], _ => []
  | fuel + 1, c :: cs, prevWord =>
    if prevWord then c :: replaceWordAux target repl fuel cs (isWordChar c)
    else
      match matchPrefixChars target (c :: cs) with
      | some rest =>
        match rest with
        | [] => repl
        | r :: _ =>
          if isWordChar r then
            c :: replaceWordAux target repl fuel cs (isWordChar c)
          else repl ++ replaceWordAux target repl fuel rest true
      | none => c :: replaceWordAux target repl fuel cs (isWordChar c)

/-- Global whole-word replacement on strings. -/
def replaceWord (target repl s : String) : String :=
  ⟨replaceWordAux target.data repl.data s.data.length s.data false⟩

/-- Repair step 3: rewrite single-quoted keys — a non-empty run of
characters other than quote/newline/carriage-return between single quotes,
followed by optional whitespace and a colon — into a double-quoted key
directly followed by the colon. -/
def quoteKeysAux : Nat → List Char → List Char
  | 0, cs => cs
  | _, [] => []
  | fuel + 1, c :: cs =>
    if c = squote then
      match takeQuoted cs with
      | some (content, rest) =>
        if !content.isEmpty &&
            content.all (fun x => x ≠ '\n' && x ≠ '\r') then
          match rest.dropWhile isJsWs with
          | ':' :: rest2 =>
            '"' :: content ++ '"' :: ':' :: quoteKeysAux fuel rest2
          | _ => c :: quoteKeysAux fuel cs
        else c :: quoteKeysAux fuel cs
      | none => c :: quoteKeysAux fuel cs
    else c :: quoteKeysAux fuel cs

/-- Repair step 4: rewrite single-quoted values — a colon, optional
whitespace, then a possibly-empty single-quoted run — into a colon, one
space and the double-quoted content. -/
def quoteValuesAux : Nat → List Char → List Char
  | 0, cs => cs
  | _, [] => []
  | fuel + 1, c :: cs =>
    if c = ':' then
      match cs.dropWhile isJsWs with
      | q :: afterQuote =>
        if q = squote then
          match takeQuoted afterQuote with
          | some (content, rest) =>
            ':' :: ' ' :: '"' :: content ++ '"' :: quoteValuesAux fuel rest
          | none => c :: quoteValuesAux fuel cs
        else c :: quoteValuesAux fuel cs
      | [] => c :: quoteValuesAux fuel cs
    else c :: quoteValuesAux fuel cs

/-- The best-effort repair pass of `parseTranscriptionResponseText`, run
when strict parsing fails (the input is trimmed by the caller): unwrap the
numeric-wrapper calls, canonicalize the Python `None`/`True`/`False`
literals, then double-quote single-quoted keys and values. -/
def sanitizeRepair (s : String) : String :=
  let s1 : String := ⟨repairFloatAux s.data.length s.data⟩
  let s2 := replaceWord ("None") ("null") s1
  let s3 := replaceWord ("True") ("true") s2
  let s4 := replaceWord ("False") ("false") s3
  let s5 : String := ⟨quoteKeysAux s4.data.length s4.data⟩
  ⟨quoteValuesAux s5.data.length s5.data⟩

/-- Model of `parseTranscriptionResponseText`, parameterized by the host
JSON parser: strict parse first; on failure, trim and repair, then parse
once more; when both fail the function throws. -/
def parseTranscriptionResponseTextE (parse : String → Option JVal)
    (text : String) : Except String NormalizedResponse :=
  match parse text with
  | some obj => Except.ok (normalizeTranscriptionResponse obj)
  | none =>
    let cleaned := sanitizeRepair (jsTrim text)
    match parse cleaned with
    | some obj2 => Except.ok (normalizeTranscriptionResponse obj2)
    | none => Except.error ("Unable to parse server response")

/-- An HTTP response as observed by `uploadPayload`: `ok`, `status`, and
the body text (`response.text()` failures are already absorbed into the
empty string by the source's `.catch(() => '')`). -/
structure HttpResponse where
  ok : Bool
  status : Nat
  text : String
  deriving Repr, BEq, DecidableEq

/-- The message produced by the non-ok branch of `uploadPayload`.  In the
source, the extraction attempt throws *inside* its own `try` block — either
the strict parse throws a syntax error, or the code itself throws the
extracted (or generic) message — so the local `catch (_)` always catches
that throw and rethrows the generic message.  `attempt` models what the
try block throws; both paths end in the catch clause. -/
def nonOkServerMessage (parse : String → Option JVal) (status : Nat)
    (rawText : String) : String :=
  let attempt : Except String Unit :=
    match parse rawText with
    | some maybe =>
      Except.error
        (if jsTruthy (jsGetField maybe ("message")) then
          jsToString ((jsGetField maybe ("message")).getD JVal.jnull)
        else ("Server error ") ++ toString status)
    | none => Except.error ("Unexpected token in JSON")
  match attempt with
  | Except.ok _ => ("Server error ") ++ toString status
  | Except.error _ => ("Server error ") ++ toString status

/-- Model of `uploadPayload`, parameterized by the host JSON parser, the
result of building the request blob (`toBlobFromPayload` may throw) and the
network exchange (`fetch` may reject).  Produces the normalized response or
the thrown error message that `startUpload` will catch. -/
def uploadPayload (parse : String → Option JVal) (blob : Except String Unit)
    (response : Except String HttpResponse) :
    Except String NormalizedResponse :=
  match blob with
  | Except.error e => Except.error e
  | Except.ok _ =>
    match response with
    | Except.error e => Except.error e
    | Except.ok r =>
      if !r.ok then Except.error (nonOkServerMessage parse r.status r.text)
      else
        match parseTranscriptionResponseTextE parse r.text with
        | Except.error _ =>
          Except.error ("Invalid response format (" ++ toString r.status ++ ")")
        | Except.ok normalized => Except.ok normalized

/-- One whole `startUpload` run: the upload outcome produced by
`uploadPayload` drives the two store snapshots. -/
def startUploadRun (store : List TranscriptRecord) (id filename : String)
    (tPending tFinal : Nat) (parse : String → Option JVal)
    (blob : Except String Unit) (response : Except String HttpResponse) :
    List TranscriptRecord × List TranscriptRecord :=
  startUploadSnapshots store id filename tPending tFinal
    (uploadPayload parse blob response)

/-- Replacing every record carrying `id` and then looking `id` up finds the
replacement, provided some record carried `id` and the replacement does. -/
theorem find?_map_replace (l : List TranscriptRecord) (id : String)
    (newRec : TranscriptRecord) (hid : (newRec.id == id) = true)
    (h : (l.find? (fun t => t.id == id)).isSome = true) :
    (l.map (fun t => if t.id == id then newRec else t)).find?
      (fun t => t.id == id) = some newRec := by
  induction l with
  | nil => simp [List.find?] at h
  | cons t ts ih =>
    by_cases ht : (t.id == id) = true
    · simp [List.find?, ht, hid]
    · have ht' : (t.id == id) = false := by
        cases hb : (t.id == id) <;> simp_all
      simp only [List.find?, ht'] at h
      simp only [List.map_cons]
      rw [if_neg (by simp [ht'])]
      simp only [List.find?, ht']
      exact ih h

/-- Closed form of the per-record edit: a record carrying the id gets the
supplied transcript, the supplied (trimmed, when non-blank) filename and an
`updatedAt` stamp, every other field copied; other records are untouched. -/
theorem applyTranscriptEdit_eq (uid : String) (nt nf : Option String)
    (now : Nat) (t : TranscriptRecord) :
    applyTranscriptEdit uid nt nf now t =
      if t.id == uid then
        { t with
          transcript := nt.getD t.transcript
          filename :=
            match nf with
            | some s => if jsTrim s ≠ "" then jsTrim s else t.filename
            | none => t.filename
          updatedAt := some now }
      else t := by
  unfold applyTranscriptEdit
  by_cases h : (t.id == uid) = true
  · simp only [h, if_true]
    cases nt <;> cases nf <;> simp only [Option.getD] <;>
      first
      | rfl
      | (split <;> rfl)
  · simp only [h]
    rw [if_neg (by simp [h]), if_neg (by simp [h])]

/-- The per-record edit never changes the record's status. -/
theorem applyTranscriptEdit_status (uid : String) (nt nf : Option String)
    (now : Nat) (t : TranscriptRecord) :
    (applyTranscriptEdit uid nt nf now t).status = t.status := by
  rw [applyTranscriptEdit_eq]
  split <;> rfl

/-- C8: normalizing the bare array body with a single word entry whose
token carries a trailing space and no transcript field synthesizes the
transcript by joining the tokens without separators, collapsing whitespace
runs and trimming — yielding exactly that token trimmed — and preserves the
word list with its numeric offsets. -/
theorem c8_bare_array_synthesizes_transcript :
    normalizeTranscriptionResponse
      (JVal.jarr [JVal.jobj
        [("word", JVal.jstr ("hi ")), ("start", JVal.jnum 0),
         ("end", JVal.jnum (3 / 10))]]) =
    { success := true, transcript := "hi",
      words := [{ word := "hi ", start := some (JNum.fin 0),
                  «end» := some (JNum.fin (3 / 10)) }] } := rfl

/-- C5 counterexample: a word entry whose `start` is the empty string — a
value that is neither a number nor a string spelling a number — is coerced
to the number `0` by the normalizer rather than set to the `null`
unknown-timing marker, because the host coercion maps the empty string to
`+0`. -/
theorem c5_counterexample :
    (normalizeTranscriptionResponse
      (JVal.jarr [JVal.jobj [("word", JVal.jstr ("hi")),
        ("start", JVal.jstr (""))]])).words =
      [{ word := "hi", start := some (JNum.fin 0), «end» := none }] ∧
    ((some (JNum.fin 0) : Option JNum) == none) = false := by
  exact ⟨rfl, rfl⟩

/-- C5 (amended): a word entry's `start`/`end` is coerced to a number
exactly when the incoming value is a number, or a string whose trimmed
content the host `Number` coercion accepts — which includes the empty /
whitespace-only string, coerced to `0` — and is otherwise set to the
explicit unknown marker `null`; and the normalizer applies exactly this
coercion to the `start` field of every word entry (symmetrically to
`end`). -/
theorem c5_amended_start_end_coercion (v : Option JVal) (ws : List JVal) :
    ((toNumberSafe v).isSome = true ↔
      (∃ q, v = some (JVal.jnum q)) ∨
      (∃ s, v = some (JVal.jstr s) ∧
        (jsStringToNumber (jsTrim s)).isSome = true)) ∧
    ((normalizeTranscriptionResponse (JVal.jarr ws)).words.map
        (fun w => w.start) =
      ws.map (fun w => toNumberSafe (jsGetField w ("start")))) ∧
    ((normalizeTranscriptionResponse (JVal.jarr ws)).words.map
        (fun w => w.«end») =
      ws.map (fun w => toNumberSafe (jsGetField w ("end")))) := by
  refine ⟨?_, ?_, ?_⟩
  · constructor
    · intro h
      match v with
      | none => simp [toNumberSafe] at h
      | some JVal.jnull => simp [toNumberSafe] at h
      | some (JVal.jbool b) => simp [toNumberSafe] at h
      | some (JVal.jarr xs) => simp [toNumberSafe] at h
      | some (JVal.jobj fs) => simp [toNumberSafe] at h
      | some (JVal.jnum q) => exact Or.inl ⟨q, rfl⟩
      | some (JVal.jstr s) =>
        refine Or.inr ⟨s, rfl, ?_⟩
        simp only [toNumberSafe] at h
        cases hn : jsStringToNumber (jsTrim s) with
        | none => rw [hn] at h; simp at h
        | some n => simp
    · rintro (⟨q, rfl⟩ | ⟨s, rfl, hs⟩)
      · simp [toNumberSafe]
      · simp only [toNumberSafe]
        cases hn : jsStringToNumber (jsTrim s) with
        | none => rw [hn] at hs; simp at hs
        | some n => simp
  · simp [normalizeTranscriptionResponse, List.map_map]
  · simp [normalizeTranscriptionResponse, List.map_map]

/-- Across one sequential `startUpload` run, the submitted record is seen
first as `pending`, then exactly once more in the terminal state selected
by the outcome. -/
theorem recordStatusHistory_eq (store : List TranscriptRecord)
    (id filename : String) (tP tF : Nat)
    (outcome : Except String NormalizedResponse) :
    recordStatusHistory store id filename tP tF outcome =
      [Status.pending, finalStatusOf outcome] := by
  have hfind1 : findRecord (saveTranscriptRecord store
      (buildRecord id filename tP Status.pending none none none)) id =
      some (buildRecord id filename tP Status.pending none none none) :=
    List.find?_cons_of_pos _ (by simp [buildRecord])
  have hsome : (findRecord (saveTranscriptRecord store
      (buildRecord id filename tP Status.pending none none none)) id).isSome
        = true := by
    rw [hfind1]; rfl
  cases outcome with
  | ok n =>
    have h2 := find?_map_replace
      (saveTranscriptRecord store
        (buildRecord id filename tP Status.pending none none none))
      id (buildRecord id filename tF Status.success (some n.transcript)
        (some n.words) none)
      (by simp [buildRecord]) hsome
    simp only [recordStatusHistory, startUploadSnapshots, finalizeUpload,
      List.filterMap_cons, List.filterMap_nil, findRecord] at hfind1 h2 ⊢
    rw [hfind1, h2]
    rfl
  | error e =>
    have h2 := find?_map_replace
      (saveTranscriptRecord store
        (buildRecord id filename tP Status.pending none none none))
      id (buildRecord id filename tF Status.error none none (some e))
      (by simp [buildRecord]) hsome
    simp only [recordStatusHistory, startUploadSnapshots, finalizeUpload,
      List.filterMap_cons, List.filterMap_nil, findRecord] at hfind1 h2 ⊢
    rw [hfind1, h2]
    rfl

/-- C1: for the record created by a submitted upload, the status history
across the orchestrator's store writes is exactly `pending` followed by one
terminal state; every transition it performs is `pending → success` or
`pending → error`, the terminal write never re-enters `pending`, and the
only other mutation of stored records (the user-edit handler) never changes
any record's status. -/
theorem c1_status_transitions_monotonic (store : List TranscriptRecord)
    (id filename : String) (tPending tFinal : Nat)
    (outcome : Except String NormalizedResponse)
    (mid : List TranscriptRecord) (uid : String) (nt nf : Option String)
    (now : Nat) :
    recordStatusHistory store id filename tPending tFinal outcome =
      [Status.pending, finalStatusOf outcome] ∧
    List.Chain' allowedTransition
      (recordStatusHistory store id filename tPending tFinal outcome) ∧
    (finalStatusOf outcome == Status.pending) = false ∧
    (updateTranscriptStep mid uid nt nf now).map (fun t => t.status) =
      mid.map (fun t => t.status) := by
  refine ⟨recordStatusHistory_eq store id filename tPending tFinal outcome,
    ?_, ?_, ?_⟩
  · rw [recordStatusHistory_eq]
    refine List.chain'_cons.mpr ⟨⟨rfl, ?_⟩, List.chain'_singleton _⟩
    cases outcome with
    | ok n => exact Or.inl rfl
    | error e => exact Or.inr rfl
  · cases outcome with
    | ok n => rfl
    | error e => rfl
  · unfold updateTranscriptStep
    rw [List.map_map]
    exact List.map_congr_left (fun t _ => applyTranscriptEdit_status uid nt nf now t)

/-- C9: the user-edit operation maps `applyTranscriptEdit` over the store
(records with other ids are returned untouched by it), and on the matching
record it changes only the supplied fields plus the `updatedAt` stamp:
`id`, `status`, `words`, `error` and `createdAt` are all preserved. -/
theorem c9_update_changes_only_supplied_fields
    (store : List TranscriptRecord) (uid : String) (nt nf : Option String)
    (now : Nat) (t : TranscriptRecord) :
    updateTranscriptStep store uid nt nf now =
      store.map (applyTranscriptEdit uid nt nf now) ∧
    ((t.id == uid) = false → applyTranscriptEdit uid nt nf now t = t) ∧
    ((t.id == uid) = true →
      (applyTranscriptEdit uid nt nf now t).id = t.id ∧
      (applyTranscriptEdit uid nt nf now t).status = t.status ∧
      (applyTranscriptEdit uid nt nf now t).words = t.words ∧
      (applyTranscriptEdit uid nt nf now t).error = t.error ∧
      (applyTranscriptEdit uid nt nf now t).createdAt = t.createdAt ∧
      (applyTranscriptEdit uid nt nf now t).updatedAt = some now ∧
      (nt = none → (applyTranscriptEdit uid nt nf now t).transcript =
        t.transcript) ∧
      (∀ s, nt = some s → (applyTranscriptEdit uid nt nf now t).transcript =
        s) ∧
      (nf = none → (applyTranscriptEdit uid nt nf now t).filename =
        t.filename)) := by
  refine ⟨rfl, ?_, ?_⟩
  · intro h
    rw [applyTranscriptEdit_eq]
    simp [h]
  · intro h
    rw [applyTranscriptEdit_eq, if_pos h]
    refine ⟨rfl, rfl, rfl, rfl, rfl, rfl, ?_, ?_, ?_⟩
    · intro hnt; rw [hnt]; rfl
    · intro s hs; rw [hs]; rfl
    · intro hnf; rw [hnf]

/-- A concrete stored record used by the closed witnesses. -/
def sampleRec : TranscriptRecord :=
  { id := "a", filename := "f", createdAt := 1, status := Status.success,
    transcript := "old", words := [], error := none, updatedAt := none }

/-- A concrete stored record that has already been edited once (so it
carries an `updatedAt` stamp). -/
def sampleRecUpdated : TranscriptRecord :=
  { id := "a", filename := "old.m4a", createdAt := 1,
    status := Status.pending, transcript := "", words := [], error := none,
    updatedAt := some 3 }

/-- Witness for C9 at a concrete edit: supplying a transcript and no
filename stamps `updatedAt`, replaces the transcript, and leaves the
filename alone. -/
theorem c9_update_changes_only_supplied_fields_witness :
    (sampleRec.id == ("a")) = true ∧
    (applyTranscriptEdit ("a") (some ("new")) none 7 sampleRec).updatedAt =
      some 7 ∧
    (applyTranscriptEdit ("a") (some ("new")) none 7 sampleRec).transcript =
      "new" ∧
    (applyTranscriptEdit ("a") (some ("new")) none 7 sampleRec).filename =
      sampleRec.filename ∧
    (applyTranscriptEdit ("a") (some ("new")) none 7 sampleRec).status =
      sampleRec.status := by
  have h := (c9_update_changes_only_supplied_fields [] ("a") (some ("new"))
    none 7 sampleRec).2.2 (by decide)
  exact ⟨by decide, h.2.2.2.2.2.1, h.2.2.2.2.2.2.2.1 ("new") rfl,
    h.2.2.2.2.2.2.2.2 rfl, h.2.1⟩

/-- C10: the terminal transition replaces the stored record with a freshly
built one: the id and filename of the submission are preserved, `createdAt`
is the completion time (not carried over), and no `updatedAt` field is
present on the replacement. -/
theorem c10_terminal_record_rebuilt (mid : List TranscriptRecord)
    (id filename : String) (tFinal : Nat)
    (outcome : Except String NormalizedResponse)
    (h : (findRecord mid id).isSome = true) :
    ∃ r, findRecord (finalizeUpload mid id filename tFinal outcome) id =
        some r ∧
      r.id = id ∧ r.filename = filename ∧ r.createdAt = tFinal ∧
      r.updatedAt = none ∧ r.status = finalStatusOf outcome := by
  cases outcome with
  | ok n =>
    refine ⟨buildRecord id filename tFinal Status.success (some n.transcript)
      (some n.words) none, ?_, rfl, rfl, rfl, rfl, rfl⟩
    exact find?_map_replace mid id _ (by simp [buildRecord]) h
  | error e =>
    refine ⟨buildRecord id filename tFinal Status.error none none (some e),
      ?_, rfl, rfl, rfl, rfl, rfl⟩
    exact find?_map_replace mid id _ (by simp [buildRecord]) h

/-- Witness for C10 at a concrete store: the pending record had
`createdAt = 1` and a previous `updatedAt = some 3`; the replacement
carries `createdAt = 9` and no `updatedAt`. -/
theorem c10_terminal_record_rebuilt_witness :
    ((findRecord [sampleRecUpdated] ("a")).isSome = true) ∧
    ∃ r, findRecord (finalizeUpload [sampleRecUpdated] ("a") ("f.m4a") 9
        (Except.error ("boom"))) ("a") = some r ∧
      r.id = "a" ∧ r.filename = "f.m4a" ∧ r.createdAt = 9 ∧
      r.updatedAt = none ∧
      r.status = finalStatusOf (Except.error ("boom")) :=
  ⟨by decide, c10_terminal_record_rebuilt [sampleRecUpdated] ("a") ("f.m4a")
    9 (Except.error ("boom")) (by decide)⟩

/-- Running a batch of calls whose timestamps all lie within one window on
top of a state that also lies within the window accepts every call and
appends the timestamps in order, as long as the ceiling is not reached. -/
theorem runCalls_window (ts : List Nat) (st : List Nat)
    (hcross : ∀ t ∈ ts, ∀ s ∈ st, t - s < 60000)
    (hself : ∀ a ∈ ts, ∀ b ∈ ts, a - b < 60000)
    (hlen : st.length + ts.length ≤ 10) :
    runCalls ts st = (List.replicate ts.length true, st ++ ts) := by
  induction ts generalizing st with
  | nil => simp [runCalls]
  | cons t ts ih =>
    have hfilter : st.filter (fun time => t - time < 60000) = st :=
      List.filter_eq_self.mpr (fun s hs => by
        simpa using hcross t (by simp) s hs)
    have hlt : st.length < 10 := by
      simp only [List.length_cons] at hlen
      omega
    have hcheck : checkRateLimit t st = (true, st ++ [t]) := by
      simp only [checkRateLimit, hfilter]
      rw [if_neg (by omega)]
    have hcross2 : ∀ u ∈ ts, ∀ s ∈ st ++ [t], u - s < 60000 := by
      intro u hu s hs
      rcases List.mem_append.mp hs with hs1 | hs2
      · exact hcross u (by simp [hu]) s hs1
      · rw [List.mem_singleton.mp hs2]
        exact hself u (by simp [hu]) t (by simp)
    have hself2 : ∀ a ∈ ts, ∀ b ∈ ts, a - b < 60000 := fun a ha b hb =>
      hself a (by simp [ha]) b (by simp [hb])
    have hlen2 : (st ++ [t]).length + ts.length ≤ 10 := by
      simp only [List.length_append, List.length_singleton,
        List.length_cons, List.length_nil] at hlen ⊢
      omega
    simp only [runCalls, hcheck]
    rw [ih (st ++ [t]) hcross2 hself2 hlen2]
    simp [List.replicate_succ, List.append_assoc]

/-- C6: for one identity, the first 10 calls inside a 60-second window are
all allowed and the 11th inside that window is rejected; and from any
stored state whose timestamps have all aged past the window, the next call
is allowed again (old timestamps are dropped before counting). -/
theorem c6_rate_limit_window (ts : List Nat) (t11 : Nat) (st : List Nat)
    (now : Nat) (h10 : ts.length = 10)
    (hwin : ∀ a ∈ t11 :: ts, ∀ b ∈ t11 :: ts, a - b < 60000)
    (hrec : ∀ t ∈ st, 60000 ≤ now - t) :
    (runCalls ts []).1 = List.replicate 10 true ∧
    (checkRateLimit t11 (runCalls ts []).2).1 = false ∧
    (checkRateLimit now st).1 = true := by
  have hself : ∀ a ∈ ts, ∀ b ∈ ts, a - b < 60000 := fun a ha b hb =>
    hwin a (List.mem_cons_of_mem _ ha) b (List.mem_cons_of_mem _ hb)
  have hrun := runCalls_window ts []
    (by intro u hu s hs; simp at hs) hself (by simp [h10])
  refine ⟨by rw [hrun, h10], ?_, ?_⟩
  · have h2 : (runCalls ts []).2 = ts := by rw [hrun]; simp
    rw [h2]
    have hfilter : ts.filter (fun time => t11 - time < 60000) = ts :=
      List.filter_eq_self.mpr (fun s hs => by
        simpa using hwin t11 (by simp) s (List.mem_cons_of_mem _ hs))
    simp only [checkRateLimit, hfilter]
    rw [if_pos (by rw [h10])]
  · have hfilter : st.filter (fun time => now - time < 60000) = [] := by
      rw [List.filter_eq_nil_iff]
      intro a ha
      simpa using Nat.not_lt.mpr (hrec a ha)
    simp only [checkRateLimit, hfilter]
    rw [if_neg (by simp)]

/-- Witness for C6: ten calls at time 0, an eleventh still inside the
window, and a later call after a stale state has aged out. -/
theorem c6_rate_limit_window_witness :
    (runCalls [0, 0, 0, 0, 0, 0, 0, 0, 0, 0] []).1 =
      List.replicate 10 true ∧
    (checkRateLimit 59999 (runCalls [0, 0, 0, 0, 0, 0, 0, 0, 0, 0] []).2).1 =
      false ∧
    (checkRateLimit 70000 [5]).1 = true :=
  c6_rate_limit_window [0, 0, 0, 0, 0, 0, 0, 0, 0, 0] 59999 [5] 70000
    (by decide) (by decide) (by decide)

/-- C7 counterexample: an introspection response that does contain an
`error` field — with the empty string as its value — validates as `true`,
because the source tests the field with JavaScript truthiness
(`if (tokenInfo.error)`) and the empty string is falsy. -/
theorem c7_counterexample :
    validateToken ("tok")
      (IntrospectionOutcome.ok (JVal.jobj [(("error"), JVal.jstr (""))])) =
      true ∧
    (jsGetField (JVal.jobj [(("error"), JVal.jstr (""))])
      ("error")).isSome = true := by
  exact ⟨rfl, rfl⟩
/-- C7 (amended): credential validation fails closed — false on network
error, false on a malformed (non-JSON) response, false when the response
carries a *truthy* (in particular, non-empty) `error` field, false when the
parsed `expires_in` is below 300 — and returns true otherwise. -/
theorem c7_amended_fail_closed (token : String) (info : JVal)
    (htok : token ≠ "") :
    validateToken token IntrospectionOutcome.netError = false ∧
    validateToken token IntrospectionOutcome.badJson = false ∧
    (jsTruthy (jsGetField info ("error")) = true →
      validateToken token (IntrospectionOutcome.ok info) = false) ∧
    (∀ n : ℤ, jsTruthy (jsGetField info ("error")) = false →
      parseIntJs (jsGetField info ("expires_in")) = some n → n < 300 →
      validateToken token (IntrospectionOutcome.ok info) = false) ∧
    (jsTruthy (jsGetField info ("error")) = false →
      (∀ n : ℤ, parseIntJs (jsGetField info ("expires_in")) = some n →
        300 ≤ n) →
      validateToken token (IntrospectionOutcome.ok info) = true) := by
  refine ⟨by simp [validateToken], by simp [validateToken], ?_, ?_, ?_⟩
  · intro h
    simp [validateToken, htok, h]
  · intro n hfalse hsome hlt
    simp [validateToken, htok, hfalse, hsome, hlt]
  · intro hfalse hbig
    cases hp : parseIntJs (jsGetField info ("expires_in")) with
    | none => simp [validateToken, htok, hfalse, hp]
    | some n =>
      have h300 := hbig n hp
      simp [validateToken, htok, hfalse, hp, not_lt.mpr h300]

/-- Witness for C7 at a concrete token and response: a parsed JSON body
with neither an `error` field nor an `expires_in` field validates, and a
network error fails. -/
theorem c7_amended_fail_closed_witness :
    (("t" : String) ≠ "") ∧
    validateToken ("t") (IntrospectionOutcome.ok (JVal.jobj [])) = true ∧
    validateToken ("t") IntrospectionOutcome.netError = false := by
  have hnone : parseIntJs (jsGetField (JVal.jobj []) ("expires_in")) =
      none := rfl
  have h := c7_amended_fail_closed ("t") (JVal.jobj []) (by decide)
  refine ⟨by decide, ?_, h.1⟩
  exact h.2.2.2.2 rfl (fun n hn => by rw [hnone] at hn; cases hn)

/-- C4 counterexample: a present but zero-byte audio buffer is not
rejected — `arrayBuffer.byteLength >= 0` holds for an empty buffer — so the
upload is accepted and a record is created (here: the pending record,
finalized to `error`, lands in the store). -/
theorem c4_counterexample :
    startBackgroundUploadGuard (some ("a.m4a")) (some 0) none =
      UploadDecision.accepted ∧
    (handleStartBackgroundUpload [] (some ("a.m4a")) (some 0) none ("id1")
      5 9 (Except.error ("network down"))).length = 1 := by
  exact ⟨rfl, rfl⟩

/-- C4 (amended): a call with a falsy filename (absent or empty), or with
neither an array-buffer payload nor a `data:` URL payload present, fails
synchronously with the `Missing file data` rejection before any network
exchange, and no record is created; a present zero-length buffer is
accepted. -/
theorem c4_amended_missing_input_rejected (filename : Option String)
    (arrayBuffer : Option Nat) (dataUrl : Option String)
    (store : List TranscriptRecord) (id : String) (tP tF : Nat)
    (outcome : Except String NormalizedResponse)
    (h : (filename = none ∨ filename = some "") ∨
      (arrayBuffer = none ∧ hasDataUrlPayload dataUrl = false)) :
    startBackgroundUploadGuard filename arrayBuffer dataUrl =
      UploadDecision.rejected ("Missing file data") ∧
    handleStartBackgroundUpload store filename arrayBuffer dataUrl id tP tF
      outcome = store := by
  have hg : startBackgroundUploadGuard filename arrayBuffer dataUrl =
      UploadDecision.rejected ("Missing file data") := by
    rcases h with (h1 | h1) | ⟨h2, h3⟩
    · subst h1; simp [startBackgroundUploadGuard]
    · subst h1; simp [startBackgroundUploadGuard]
    · subst h2; simp [startBackgroundUploadGuard, hasArrayBufferPayload, h3]
  exact ⟨hg, by simp [handleStartBackgroundUpload, hg]⟩

/-- Witness for C4 (amended) at a concrete call: an absent filename is
rejected and the store stays empty even though a buffer is present. -/
theorem c4_amended_missing_input_rejected_witness :
    (((none : Option String) = none ∨ (none : Option String) = some "") ∨
      ((some 7 : Option Nat) = none ∧ hasDataUrlPayload none = false)) ∧
    (startBackgroundUploadGuard none (some 7) none =
      UploadDecision.rejected ("Missing file data") ∧
    handleStartBackgroundUpload [] none (some 7) none ("i") 1 2
      (Except.error ("x")) = []) :=
  ⟨Or.inl (Or.inl rfl),
    c4_amended_missing_input_rejected none (some 7) none [] ("i") 1 2
      (Except.error ("x")) (Or.inl (Or.inl rfl))⟩

/-- C3 counterexample: on a success status with an unparseable body the
record's error message is `Invalid response format (200)` — the source
appends the HTTP status in parentheses — which differs from the exact
message `Invalid response format` stated by the claim.  The parser
instantiation agrees with strict JSON parsing on every string it is queried
on here (the body is a lone opening brace, invalid JSON before and after
repair). -/
theorem c3_counterexample :
    uploadPayload (fun _ => none) (Except.ok ())
      (Except.ok { ok := true, status := 200, text := "\x7b" }) =
      Except.error ("Invalid response format (200)") ∧
    (("Invalid response format (200)" : String) ==
      ("Invalid response format")) = false := by
  exact ⟨rfl, rfl⟩

/-- C3 (amended): whenever both the strict parse of the body and the parse
of its repaired form fail, the upload settles with the error message
`Invalid response format (<status>)` — and with no partially-parsed or
guessed data, since the outcome is an error, not a normalized result. -/
theorem c3_amended_invalid_format (parse : String → Option JVal)
    (status : Nat) (text : String) (h1 : parse text = none)
    (h2 : parse (sanitizeRepair (jsTrim text)) = none) :
    uploadPayload parse (Except.ok ())
      (Except.ok { ok := true, status := status, text := text }) =
      Except.error ("Invalid response format (" ++ toString status ++ ")") := by
  simp [uploadPayload, parseTranscriptionResponseTextE, h1, h2]

/-- Witness for C3 (amended) at a concrete unparseable body. -/
theorem c3_amended_invalid_format_witness :
    ((fun (_ : String) => (none : Option JVal)) ("\x7bbroken") = none) ∧
    uploadPayload (fun _ => none) (Except.ok ())
      (Except.ok { ok := true, status := 404, text := "\x7bbroken" }) =
      Except.error ("Invalid response format (" ++ toString 404 ++ ")") :=
  ⟨rfl, c3_amended_invalid_format (fun _ => none) 404 ("\x7bbroken") rfl rfl⟩

/-- C2 (code bug): for a non-success HTTP status whose body parses to an
object with a truthy human-readable `message`, the record still gets the
generic `Server error <status>` message — the extraction throw sits inside
its own `try` block, so the local `catch (_)` swallows it and rethrows the
generic message.  The parser instantiation agrees with strict JSON parsing
on the one string it is queried on (the JSON object body). -/
theorem c2_server_message_swallowed :
    jsTruthy (jsGetField
      (JVal.jobj [(("message"), JVal.jstr ("Insufficient balance"))])
      ("message")) = true ∧
    nonOkServerMessage
      (fun s =>
        if s = ("\x7b\x22message\x22:\x22Insufficient balance\x22\x7d") then
          some (JVal.jobj [(("message"), JVal.jstr ("Insufficient balance"))])
        else none)
      402 ("\x7b\x22message\x22:\x22Insufficient balance\x22\x7d") =
      "Server error 402" ∧
    uploadPayload
      (fun s =>
        if s = ("\x7b\x22message\x22:\x22Insufficient balance\x22\x7d") then
          some (JVal.jobj [(("message"), JVal.jstr ("Insufficient balance"))])
        else none)
      (Except.ok ())
      (Except.ok
        { ok := false, status := 402,
          text := "\x7b\x22message\x22:\x22Insufficient balance\x22\x7d" }) =
      Except.error ("Server error 402") ∧
    (("Server error 402" : String) == ("Insufficient balance")) = false := by
  refine ⟨rfl, rfl, rfl, rfl⟩
